import Mathlib

/-!
Verification of the hybrid storage driver in `src/drivers/PostgreSQLDriver.ts`
(package `@hawiah/postgres`).

The development shallowly embeds the driver's data model and operations:

* JavaScript/JSON values are modelled by `PgVal`; JS objects (documents, query
  criteria, parsed JSONB blobs) are association lists `Doc = List (String × PgVal)`.
  JS key-insertion order for overridden keys is abstracted away: the model
  preserves field-lookup semantics (`getField`), which is all the driver's
  operations observe.
* The pure helpers `splitData`, `mergeData`, `mapHawiahTypeToSQL`,
  `matchesQuery`, `generateId` are translated directly from the source.
* The stateful driver is modelled per storage mode, as the source branches on
  `this.schema && this.dbType === 'sql'` at the top of every operation:
  `NoSqlStore` (document mode, one `_data` JSONB column) and `SqlStore`
  (hybrid mode, one typed column per schema field plus an `_extras` JSONB
  column).  The SQL layer is idealised: a stored value is returned unchanged
  by a later SELECT; a column not named in an INSERT is NULL (per the
  CREATE TABLE statements in `connect`); a TIMESTAMP column stores and
  returns the timestamp value (`vdate`), not its ISO-string rendering.
* Wall-clock time (`new Date()` / `Date.now()`) and the random id suffix are
  passed to the operations as explicit arguments.
* Operations that can throw return `Except String _`; the `ensureConnected`
  guard is the `connected` test at the head of each operation.
-/

/-- A JavaScript/JSON value as it appears in documents, query criteria and
database cells: `vnull` (JS `null`), booleans, numbers (integral fragment),
strings, `Date` objects (`vdate`, carrying the millisecond timestamp),
JSON objects (`vobj`) and JSON arrays (`varr`). -/
inductive PgVal where
  | vnull : PgVal
  | vbool : Bool → PgVal
  | vnum : Int → PgVal
  | vstr : String → PgVal
  | vdate : Nat → PgVal
  | vobj : List (String × PgVal) → PgVal
  | varr : List PgVal → PgVal

/-- A JS object / flat document: an association list from field name to value.
Reads observe only the first binding of a key (`getField`). -/
abbrev Doc := List (String × PgVal)

mutual

/-- Structural equality of JS values, modelling strict equality `===` as the
driver uses it on primitive query/record values (`matchesQuery`) and in SQL
`WHERE _id = $1` comparisons. -/
def PgVal.beq : PgVal → PgVal → Bool
  | .vnull, .vnull => true
  | .vbool a, .vbool b => a == b
  | .vnum a, .vnum b => a == b
  | .vstr a, .vstr b => a == b
  | .vdate a, .vdate b => a == b
  | .vobj a, .vobj b => PgVal.beqFields a b
  | .varr a, .varr b => PgVal.beqList a b
  | _, _ => false

/-- Pointwise equality of object field lists. -/
def PgVal.beqFields : List (String × PgVal) → List (String × PgVal) → Bool
  | [], [] => true
  | (k, v) :: t, (k2, v2) :: t2 => k == k2 && PgVal.beq v v2 && PgVal.beqFields t t2
  | _, _ => false

/-- Pointwise equality of array element lists. -/
def PgVal.beqList : List PgVal → List PgVal → Bool
  | [], [] => true
  | a :: t, b :: t2 => PgVal.beq a b && PgVal.beqList t t2
  | _, _ => false

end

/-- Field lookup on a JS object: the (first) binding of key `k`, `none` when
the key is absent (JS `undefined`). -/
def getField (d : Doc) (k : String) : Option PgVal :=
  (d.find? (fun kv => kv.1 == k)).map (fun kv => kv.2)

/-- Whether the object has the key at all. -/
def hasField (d : Doc) (k : String) : Bool :=
  (getField d k).isSome

/-- Drop a key from an object, as in the rest-destructuring
`const { _extras, ...rest } = row`. -/
def removeField (d : Doc) (k : String) : Doc :=
  d.filter (fun kv => !(kv.1 == k))

/-- JS object spread `{ ...a, ...b }`: `b`'s bindings win on common keys.
(The model appends `b` after the surviving part of `a`; JS keeps overridden
keys at their position in `a`, but field lookup cannot tell the two apart.) -/
def spread (a b : Doc) : Doc :=
  a.filter (fun kv => !(hasField b kv.1)) ++ b

/-- JS truthiness of a value, as tested by `if (query._id)`. -/
def truthy : PgVal → Bool
  | .vnull => false
  | .vbool b => b
  | .vnum n => n != 0
  | .vstr s => !(s == "")
  | .vdate _ => true
  | .vobj _ => true
  | .varr _ => true

/-- `matchesQuery(record, query)` (PostgreSQLDriver.ts lines 365-372): the
record matches when every query key's value strictly equals the record's
value at that key; an absent record key never matches. -/
def matchesQuery (record : Doc) (query : Doc) : Bool :=
  query.all (fun kv =>
    match getField record kv.1 with
    | some v => PgVal.beq v kv.2
    | none => false)

/-- JS `String.prototype.includes` on char lists: does `needle` occur as a
contiguous substring of `hay`? -/
def hasSubstr : List Char → List Char → Bool
  | _, [] => true
  | [], _ :: _ => false
  | h :: t, n => List.isPrefixOf n (h :: t) || hasSubstr t n

/-- JS `s.includes(sub)`. -/
def includes (s sub : String) : Bool :=
  hasSubstr s.data sub.data

/-- JS `String.prototype.toUpperCase` (ASCII fragment), character-wise. -/
def toUpperStr (s : String) : String :=
  String.mk (s.data.map Char.toUpper)

/-- `mapHawiahTypeToSQL` (PostgreSQLDriver.ts lines 380-400), on the string
type tag (the source first unwraps `{ type: tag }` objects to `tag`; the
model takes the tag directly).  The source's local `t = tag.toUpperCase()`
is inlined as `toUpperStr tag`; the first matching `includes` rule decides
the column type. -/
def mapHawiahTypeToSQL (tag : String) : String :=
  if includes (toUpperStr tag) "STRING" || includes (toUpperStr tag) "TEXT" ||
      includes (toUpperStr tag) "EMAIL" || includes (toUpperStr tag) "URL" ||
      includes (toUpperStr tag) "CHAR" then "TEXT"
  else if includes (toUpperStr tag) "UUID" then "UUID"
  else if includes (toUpperStr tag) "NUMBER" then
    if includes (toUpperStr tag) "INT" then "INTEGER"
    else if includes (toUpperStr tag) "BIGINT" then "BIGINT"
    else "REAL"
  else if includes (toUpperStr tag) "BOOLEAN" then "BOOLEAN"
  else if includes (toUpperStr tag) "DATE" then "TIMESTAMP"
  else if includes (toUpperStr tag) "JSON" then "JSONB"
  else if includes (toUpperStr tag) "BLOB" then "BYTEA"
  else "TEXT"

/-- The three reserved keys dropped by `splitData`. -/
def reservedKeys : List String := ["_id", "_createdAt", "_updatedAt"]

/-- Result of `splitData`. -/
structure SplitResult where
  schemaData : Doc
  extraData : Doc

/-- `splitData` (PostgreSQLDriver.ts lines 408-426).  `defn` is `none` when
`this.schema` is null, otherwise the schema definition's field names
(`key in definition` only inspects keys).  The source loop assigns each entry
to `schemaData` when its key is in the definition, else to `extraData` unless
the key is reserved; as a JS object's entries have distinct keys, the loop is
rendered as two filters. -/
def splitData (defn : Option (List String)) (data : Doc) : SplitResult :=
  match defn with
  | none => ⟨[], data⟩
  | some names =>
    ⟨data.filter (fun kv => names.contains kv.1),
     data.filter (fun kv => !(names.contains kv.1) && !(reservedKeys.contains kv.1))⟩

/-- JSON whitespace. -/
def jsonWs (c : Char) : Bool :=
  c == ' ' || c == '\t' || c == '\n' || c == '\r'

/-- Skip leading JSON whitespace. -/
def skipWs (cs : List Char) : List Char :=
  cs.dropWhile jsonWs

/-- Decimal digit test. -/
def isDigitCh (c : Char) : Bool :=
  '0' ≤ c && c ≤ '9'

/-- Parse a run of decimal digits into a natural number; fails on no digits. -/
def parseDigits (cs : List Char) : Option (Nat × List Char) :=
  let ds := cs.takeWhile isDigitCh
  if ds.isEmpty then none
  else some (ds.foldl (fun n c => n * 10 + (c.toNat - '0'.toNat)) 0, cs.dropWhile isDigitCh)

/-- Translate a JSON string escape character. -/
def escChar (c : Char) : Char :=
  if c == 'n' then '\n'
  else if c == 't' then '\t'
  else if c == 'r' then '\r'
  else c

/-- Parse the body of a JSON string literal (after the opening quote), up to
the closing quote; handles single-character escapes. -/
def parseStrChars (fuel : Nat) (cs : List Char) : Option (List Char × List Char) :=
  match fuel, cs with
  | 0, _ => none
  | _, [] => none
  | _ + 1, '"' :: rest => some ([], rest)
  | fuel + 1, '\\' :: c :: rest =>
    (parseStrChars fuel rest).map (fun p => (escChar c :: p.1, p.2))
  | fuel + 1, c :: rest =>
    (parseStrChars fuel rest).map (fun p => (c :: p.1, p.2))

mutual

/-- Fuel-indexed recursive-descent parser for a JSON value, modelling the
external `JSON.parse` (objects, arrays, strings, integral numbers, booleans,
null; fractional numbers are outside the modelled fragment). -/
def parseVal (fuel : Nat) (cs : List Char) : Option (PgVal × List Char) :=
  match fuel with
  | 0 => none
  | fuel + 1 =>
    match skipWs cs with
    | 'n' :: 'u' :: 'l' :: 'l' :: r => some (.vnull, r)
    | 't' :: 'r' :: 'u' :: 'e' :: r => some (.vbool true, r)
    | 'f' :: 'a' :: 'l' :: 's' :: 'e' :: r => some (.vbool false, r)
    | '"' :: r =>
      (parseStrChars fuel r).map (fun p => (.vstr (String.mk p.1), p.2))
    | '\x7b' :: r =>
      (match skipWs r with
       | '\x7d' :: r2 => some (.vobj [], r2)
       | _ => (parseMembers fuel (skipWs r)).map (fun p => (.vobj p.1, p.2)))
    | '[' :: r =>
      (match skipWs r with
       | ']' :: r2 => some (.varr [], r2)
       | _ => (parseElems fuel (skipWs r)).map (fun p => (.varr p.1, p.2)))
    | '-' :: r =>
      (parseDigits r).map (fun p => (.vnum (-(p.1 : Int)), p.2))
    | c :: r =>
      if isDigitCh c then (parseDigits (c :: r)).map (fun p => (.vnum (p.1 : Int), p.2))
      else none
    | [] => none

/-- Parse one or more `"key": value` members followed by `,` or the closing
brace. -/
def parseMembers (fuel : Nat) (cs : List Char) : Option (List (String × PgVal) × List Char) :=
  match fuel with
  | 0 => none
  | fuel + 1 =>
    match skipWs cs with
    | '"' :: r =>
      match parseStrChars fuel r with
      | none => none
      | some (key, r2) =>
        match skipWs r2 with
        | ':' :: r3 =>
          match parseVal fuel r3 with
          | none => none
          | some (v, r4) =>
            match skipWs r4 with
            | ',' :: r5 =>
              (parseMembers fuel r5).map (fun p => ((String.mk key, v) :: p.1, p.2))
            | '\x7d' :: r5 => some ([(String.mk key, v)], r5)
            | _ => none
        | _ => none
    | _ => none

/-- Parse one or more array elements followed by `,` or the closing bracket. -/
def parseElems (fuel : Nat) (cs : List Char) : Option (List PgVal × List Char) :=
  match fuel with
  | 0 => none
  | fuel + 1 =>
    match parseVal fuel cs with
    | none => none
    | some (v, r) =>
      match skipWs r with
      | ',' :: r2 => (parseElems fuel r2).map (fun p => (v :: p.1, p.2))
      | ']' :: r2 => some ([v], r2)
      | _ => none

end

/-- `JSON.parse` on a whole string: the parsed value when the string is a
single JSON value with only trailing whitespace, `none` when parsing throws. -/
def jsonParse (s : String) : Option PgVal :=
  match parseVal (2 * s.data.length + 2) s.data with
  | some (v, rest) => if (skipWs rest).isEmpty then some v else none
  | none => none

/-- The own enumerable properties contributed by spreading a value into an
object literal, as in `{ ...rest, ...extras }`: objects contribute their
fields, arrays and strings contribute index-keyed entries, every other value
contributes nothing. -/
def spreadFields : PgVal → Doc
  | .vobj fs => fs
  | .varr l => l.enum.map (fun p => (toString p.1, p.2))
  | .vstr s => s.data.enum.map (fun p => (toString p.1, .vstr (String.singleton p.2)))
  | _ => []

/-- `mergeData` (PostgreSQLDriver.ts lines 434-441): destructure `_extras`
out of the row; when the blob is a non-null object (including arrays and
dates, whose JS `typeof` is `object`) spread it as-is, when it is a string
run it through `JSON.parse` (which throws — `none` — on malformed input,
there is no catch), otherwise use `{}`; overlay the result onto the
remaining row fields. -/
def mergeData (row : Doc) : Option Doc :=
  let rest := removeField row "_extras"
  match getField row "_extras" with
  | some (.vobj fs) => some (spread rest fs)
  | some (.varr l) => some (spread rest (spreadFields (.varr l)))
  | some (.vdate d) => some (spread rest (spreadFields (.vdate d)))
  | some (.vstr s) => (jsonParse s).map (fun v => spread rest (spreadFields v))
  | _ => some rest

/-- The error message thrown by `ensureConnected` (lines 343-347). -/
def notConnectedMsg : String := "Database not connected. Call connect() first."

/-- Abstraction of `Date.prototype.toISOString`: a string rendering of the
millisecond timestamp (the exact ISO format is irrelevant to the claims;
what matters is that equal timestamps render equally and that the rendering
is a string, not a `Date`). -/
def isoString (nowMs : Nat) : String :=
  toString nowMs ++ "Z"

/-- `generateId` (lines 354-356): `Date.now()` rendered in decimal, an
underscore, then the random base-36 suffix (passed in explicitly). -/
def generateId (nowMs : Nat) (rand : String) : String :=
  toString nowMs ++ "_" ++ rand

/-- The record built by `set` (lines 145-150), shared by both storage modes:
`{ ...data, _id: id, _createdAt: now.toISOString(), _updatedAt: now.toISOString() }`. -/
def buildRecord (data : Doc) (id : String) (nowMs : Nat) : Doc :=
  spread data
    [("_id", .vstr id),
     ("_createdAt", .vstr (isoString nowMs)),
     ("_updatedAt", .vstr (isoString nowMs))]

/-- The `if (query._id)` test of `getOne` (line 217): the `_id` value when
present and truthy, `none` otherwise (absent or falsy, e.g. the empty
string). -/
def idFastPath (query : Doc) : Option PgVal :=
  match getField query "_id" with
  | some v => if truthy v then some v else none
  | none => none

/-- A physical row of the document-mode table (`_id`, `_data` JSONB,
`_createdAt`, `_updatedAt`).  The JSONB round trip is the identity, so
`data` holds the stored document itself. -/
structure NoRow where
  id : String
  data : Doc
  createdAt : Nat
  updatedAt : Nat

/-- The driver in document (NoSQL) mode: the nullable pool handle is the
`connected` flag, the table contents are `rows`. -/
structure NoSqlStore where
  connected : Bool
  rows : List NoRow

/-- `set` (lines 140-177), document-mode branch: guard, generate id, build
the record, INSERT a row carrying the record as `_data` and `now` in both
timestamp columns, return the record. -/
def NoSqlStore.set (st : NoSqlStore) (nowMs : Nat) (rand : String) (data : Doc) :
    Except String (NoSqlStore × Doc) :=
  if !st.connected then .error notConnectedMsg
  else
    let id := generateId nowMs rand
    let record := buildRecord data id nowMs
    .ok ({ st with rows := st.rows ++ [⟨id, record, nowMs, nowMs⟩] }, record)

/-- `get` (lines 185-207), document-mode branch: SELECT `_data` of every row,
return all records for an empty query, else filter by `matchesQuery`. -/
def NoSqlStore.get (st : NoSqlStore) (query : Doc) : Except String (List Doc) :=
  if !st.connected then .error notConnectedMsg
  else
    let allRecords := st.rows.map (fun r => r.data)
    if query.isEmpty then .ok allRecords
    else .ok (allRecords.filter (fun r => matchesQuery r query))

/-- The direct id path of `getOne` (lines 223-225):
`SELECT _data FROM t WHERE _id = $1 LIMIT 1`, i.e. the `_data` of the first
row whose `_id` column equals the query's `_id` value. -/
def NoSqlStore.directIdLookup (st : NoSqlStore) (v : PgVal) : Option Doc :=
  (st.rows.find? (fun r => PgVal.beq (.vstr r.id) v)).map (fun r => r.data)

/-- `getOne` (lines 214-231), document-mode branch: on a truthy `query._id`
take the direct row lookup; otherwise delegate to `get` and return the first
result or `null`. -/
def NoSqlStore.getOne (st : NoSqlStore) (query : Doc) : Except String (Option Doc) :=
  if !st.connected then .error notConnectedMsg
  else
    match idFastPath query with
    | some v => .ok (st.directIdLookup v)
    | none => (st.get query).map (fun results => results.head?)

/-- `update` (lines 240-289), document-mode branch: resolve matches via
`get`, then for each matched record build
`{ ...record, ...data, _updatedAt: now.toISOString() }` and
`UPDATE t SET _data = $1, _updatedAt = $2 WHERE _id = $3` keyed by the
record's own `_id` field; the counter increments per matched record whether
or not a row was hit. -/
def NoSqlStore.update (st : NoSqlStore) (nowMs : Nat) (query data : Doc) :
    Except String (NoSqlStore × Nat) :=
  if !st.connected then .error notConnectedMsg
  else
    match st.get query with
    | .error e => .error e
    | .ok records =>
      .ok (records.foldl (fun acc record =>
        let updatedRecord := spread (spread record data) [("_updatedAt", .vstr (isoString nowMs))]
        match getField record "_id" with
        | some (.vstr rid) =>
          ({ acc.1 with rows := acc.1.rows.map (fun r =>
              if r.id == rid then { r with data := updatedRecord, updatedAt := nowMs } else r) },
           acc.2 + 1)
        | _ => (acc.1, acc.2 + 1)) (st, 0))

/-- `delete` (lines 296-307), document-mode: resolve matches via `get`, then
`DELETE FROM t WHERE _id = $1` per record, counting each matched record. -/
def NoSqlStore.delete (st : NoSqlStore) (query : Doc) : Except String (NoSqlStore × Nat) :=
  if !st.connected then .error notConnectedMsg
  else
    match st.get query with
    | .error e => .error e
    | .ok records =>
      .ok (records.foldl (fun acc record =>
        match getField record "_id" with
        | some (.vstr rid) =>
          ({ acc.1 with rows := acc.1.rows.filter (fun r => !(r.id == rid)) }, acc.2 + 1)
        | _ => (acc.1, acc.2 + 1)) (st, 0))

/-- `exists` (lines 314-318; `exists` is a reserved word in Lean, hence
`existsQ`): `getOne(query) !== null`. -/
def NoSqlStore.existsQ (st : NoSqlStore) (query : Doc) : Except String Bool :=
  if !st.connected then .error notConnectedMsg
  else (st.getOne query).map (fun r => r.isSome)

/-- `count` (lines 325-336), document-mode: `SELECT COUNT(*)` (the number of
rows) for the empty query, else the length of `get`'s result. -/
def NoSqlStore.count (st : NoSqlStore) (query : Doc) : Except String Nat :=
  if !st.connected then .error notConnectedMsg
  else if query.isEmpty then .ok st.rows.length
  else (st.get query).map (fun l => l.length)

/-- A physical row of the hybrid-mode table: the `_id` column, one typed
column per schema field (`cols`, in schema order; a column not named by the
INSERT/UPDATE holds SQL NULL, modelled as `vnull`), the `_extras` JSONB
column (the JSONB round trip is the identity, so the parsed object is held
directly) and the two TIMESTAMP columns. -/
structure SqlRow where
  id : String
  cols : Doc
  extras : Doc
  createdAt : Nat
  updatedAt : Nat

/-- The driver in hybrid (SQL) mode: `defn` is the schema definition's field
names, fixed at `connect` time by the CREATE TABLE statement. -/
structure SqlStore where
  connected : Bool
  defn : List String
  rows : List SqlRow

/-- A `SELECT *` result row as the JS object handed to `mergeData`: keys in
CREATE TABLE column order (`_id`, schema columns, `_extras`, `_createdAt`,
`_updatedAt`); the JSONB `_extras` cell arrives parsed as an object, the
TIMESTAMP cells arrive as `Date` values. -/
def SqlRow.toDoc (r : SqlRow) : Doc :=
  [("_id", .vstr r.id)] ++ r.cols ++
    [("_extras", .vobj r.extras),
     ("_createdAt", .vdate r.createdAt),
     ("_updatedAt", .vdate r.updatedAt)]

/-- `set` (lines 140-177), hybrid branch: guard, build the record, split it,
INSERT naming `_id`, the keys of `schemaData`, `_extras` (the stringified
extras, stored as JSONB) and the two timestamps with the `Date` value `now`;
schema columns not named by the INSERT are NULL.  Returns the record. -/
def SqlStore.set (st : SqlStore) (nowMs : Nat) (rand : String) (data : Doc) :
    Except String (SqlStore × Doc) :=
  if !st.connected then .error notConnectedMsg
  else
    let id := generateId nowMs rand
    let record := buildRecord data id nowMs
    let sp := splitData (some st.defn) record
    let row : SqlRow :=
      { id := id
        cols := st.defn.map (fun k => (k, (getField sp.schemaData k).getD .vnull))
        extras := sp.extraData
        createdAt := nowMs
        updatedAt := nowMs }
    .ok ({ st with rows := st.rows ++ [row] }, record)

/-- `get` (lines 185-207), hybrid branch: `SELECT *`, merge every row via
`mergeData` (a parse failure there throws), return all for an empty query,
else filter by `matchesQuery`. -/
def SqlStore.get (st : SqlStore) (query : Doc) : Except String (List Doc) :=
  if !st.connected then .error notConnectedMsg
  else
    match st.rows.mapM (fun r => mergeData r.toDoc) with
    | none => .error "JSON parse error"
    | some records =>
      if query.isEmpty then .ok records
      else .ok (records.filter (fun r => matchesQuery r query))

/-- The direct id path of `getOne` (lines 219-221), hybrid branch:
`SELECT * FROM t WHERE _id = $1 LIMIT 1`, merged via `mergeData`. -/
def SqlStore.directIdLookup (st : SqlStore) (v : PgVal) : Except String (Option Doc) :=
  match st.rows.find? (fun r => PgVal.beq (.vstr r.id) v) with
  | some r =>
    match mergeData r.toDoc with
    | some m => .ok (some m)
    | none => .error "JSON parse error"
  | none => .ok none

/-- `getOne` (lines 214-231), hybrid branch. -/
def SqlStore.getOne (st : SqlStore) (query : Doc) : Except String (Option Doc) :=
  if !st.connected then .error notConnectedMsg
  else
    match idFastPath query with
    | some v => st.directIdLookup v
    | none => (st.get query).map (fun results => results.head?)

/-- `update` (lines 240-289), hybrid branch: per matched (merged) record,
build `{ ...record, ...data, _updatedAt: iso }`, split it, and issue
`UPDATE t SET <schemaData keys> = ..., _extras = ..., _updatedAt = now
WHERE _id = record._id`: columns named by `schemaData` are overwritten,
other schema columns keep their value, the extras blob and the `_updatedAt`
column are replaced. -/
def SqlStore.update (st : SqlStore) (nowMs : Nat) (query data : Doc) :
    Except String (SqlStore × Nat) :=
  if !st.connected then .error notConnectedMsg
  else
    match st.get query with
    | .error e => .error e
    | .ok records =>
      .ok (records.foldl (fun acc record =>
        let updatedRecord := spread (spread record data) [("_updatedAt", .vstr (isoString nowMs))]
        let sp := splitData (some st.defn) updatedRecord
        match getField record "_id" with
        | some (.vstr rid) =>
          ({ acc.1 with rows := acc.1.rows.map (fun r =>
              if r.id == rid then
                { r with
                  cols := r.cols.map (fun kv =>
                    match getField sp.schemaData kv.1 with
                    | some v => (kv.1, v)
                    | none => kv)
                  extras := sp.extraData
                  updatedAt := nowMs }
              else r) },
           acc.2 + 1)
        | _ => (acc.1, acc.2 + 1)) (st, 0))

/-- `delete` (lines 296-307), hybrid branch. -/
def SqlStore.delete (st : SqlStore) (query : Doc) : Except String (SqlStore × Nat) :=
  if !st.connected then .error notConnectedMsg
  else
    match st.get query with
    | .error e => .error e
    | .ok records =>
      .ok (records.foldl (fun acc record =>
        match getField record "_id" with
        | some (.vstr rid) =>
          ({ acc.1 with rows := acc.1.rows.filter (fun r => !(r.id == rid)) }, acc.2 + 1)
        | _ => (acc.1, acc.2 + 1)) (st, 0))

/-- `exists` (lines 314-318), hybrid branch. -/
def SqlStore.existsQ (st : SqlStore) (query : Doc) : Except String Bool :=
  if !st.connected then .error notConnectedMsg
  else (st.getOne query).map (fun r => r.isSome)

/-- `count` (lines 325-336), hybrid branch. -/
def SqlStore.count (st : SqlStore) (query : Doc) : Except String Nat :=
  if !st.connected then .error notConnectedMsg
  else if query.isEmpty then .ok st.rows.length
  else (st.get query).map (fun l => l.length)

theorem getField_cons (k0 : String) (v0 : PgVal) (t : Doc) (k : String) :
    getField ((k0, v0) :: t) k = if k0 == k then some v0 else getField t k := by
  cases h : (k0 == k) <;> simp [getField, List.find?_cons, h]

theorem getField_eq_none_of_not_hasField (d : Doc) (k : String)
    (h : hasField d k = false) : getField d k = none := by
  unfold hasField at h
  cases hg : getField d k
  · rfl
  · rw [hg] at h; simp at h

theorem getField_filter (p : String → Bool) (d : Doc) (k : String) :
    getField (d.filter (fun kv => p kv.1)) k = if p k then getField d k else none := by
  induction d with
  | nil => cases hp : p k <;> simp [getField, hp]
  | cons kv t ih =>
    obtain ⟨k0, v0⟩ := kv
    cases hk : (k0 == k)
    · cases hp : p k0 <;> simp [List.filter_cons, hp, getField_cons, hk, ih]
    · have hkeq : k0 = k := by simpa using hk
      subst hkeq
      cases hp : p k0 <;> simp [List.filter_cons, hp, getField_cons, ih]

theorem getField_append (a b : Doc) (k : String) :
    getField (a ++ b) k = if hasField a k then getField a k else getField b k := by
  induction a with
  | nil => simp [getField, hasField]
  | cons kv t ih =>
    obtain ⟨k0, v0⟩ := kv
    cases hk : (k0 == k) <;>
      simp [List.cons_append, getField_cons, hasField, hk, ih]

theorem getField_spread (a b : Doc) (k : String) :
    getField (spread a b) k = if hasField b k then getField b k else getField a k := by
  unfold spread
  rw [getField_append]
  have hf : getField (a.filter (fun kv => !(hasField b kv.1))) k
      = if !(hasField b k) then getField a k else none :=
    getField_filter (fun s => !(hasField b s)) a k
  cases hb : hasField b k
  · rw [hb] at hf
    simp at hf
    have hfs : hasField (a.filter (fun kv => !(hasField b kv.1))) k = hasField a k := by
      show (getField (a.filter (fun kv => !(hasField b kv.1))) k).isSome = hasField a k
      rw [hf]; rfl
    rw [hfs]
    cases ha : hasField a k
    · simp [ha, hf, getField_eq_none_of_not_hasField a k ha,
        getField_eq_none_of_not_hasField b k hb]
    · simp [ha, hf]
  · rw [hb] at hf
    simp at hf
    have hfs : hasField (a.filter (fun kv => !(hasField b kv.1))) k = false := by
      show (getField (a.filter (fun kv => !(hasField b kv.1))) k).isSome = false
      rw [hf]; rfl
    simp [hfs]

theorem hasSubstr_iff (l n : List Char) : hasSubstr l n = true ↔ n <:+: l := by
  induction l with
  | nil =>
    cases n with
    | nil => simp [hasSubstr]
    | cons c cs => simp [hasSubstr]
  | cons c l ih =>
    cases n with
    | nil => simp [hasSubstr]
    | cons n0 ns => simp [hasSubstr, List.infix_cons_iff, ih]

theorem includes_INT_of_BIGINT (s : String) (h : includes s "BIGINT" = true) :
    includes s "INT" = true := by
  unfold includes at h ⊢
  rw [hasSubstr_iff] at h ⊢
  have hsub : "INT".data <:+: "BIGINT".data := ⟨['B', 'I', 'G'], [], by decide⟩
  exact hsub.trans h

theorem head?_isSome_eq {α : Type} (l : List α) : l.head?.isSome = !l.isEmpty := by
  cases l <;> rfl

theorem find?_isSome_eq_any {α : Type} (l : List α) (p : α → Bool) :
    (l.find? p).isSome = l.any p := by
  induction l with
  | nil => rfl
  | cons a t ih => cases h : p a <;> simp [List.find?_cons, h, ih]

theorem find?_append_of_none {α : Type} (l₁ l₂ : List α) (p : α → Bool)
    (h : ∀ x ∈ l₁, p x = false) : (l₁ ++ l₂).find? p = l₂.find? p := by
  induction l₁ with
  | nil => rfl
  | cons a t ih =>
    have ha := h a (List.mem_cons_self a t)
    simp only [List.cons_append, List.find?_cons, ha]
    exact ih (fun x hx => h x (List.mem_cons_of_mem a hx))

theorem beq_vstr (a b : String) : PgVal.beq (.vstr a) (.vstr b) = (a == b) := by
  simp [PgVal.beq]

theorem generateId_ne_empty (nowMs : Nat) (rand : String) : generateId nowMs rand ≠ "" := by
  intro h
  have h2 := congrArg String.length h
  simp [generateId, String.length_append] at h2
  exact absurd h2.1.2 (by decide)

/-- C1: for every flat document and schema definition, `splitData` puts a key
into `schemaData` iff the key is named in the definition (keeping its value),
puts every other non-reserved key into `extraData`, drops the three reserved
keys from both outputs, and with an empty definition sends every non-reserved
field to `extraData`. -/
theorem claim_C1_splitData_partition (names : List String) (d : Doc) (k : String) :
    getField (splitData (some names) d).schemaData k
      = (if names.contains k then getField d k else none)
    ∧ getField (splitData (some names) d).extraData k
      = (if !(names.contains k) && !(reservedKeys.contains k) then getField d k else none)
    ∧ getField (splitData (some []) d).extraData k
      = (if reservedKeys.contains k then none else getField d k) := by
  refine ⟨?_, ?_, ?_⟩
  · exact getField_filter (fun s => names.contains s) d k
  · exact getField_filter (fun s => !(names.contains s) && !(reservedKeys.contains s)) d k
  · have h := getField_filter
      (fun s => !(([] : List String).contains s) && !(reservedKeys.contains s)) d k
    refine h.trans ?_
    cases hr : reservedKeys.contains k <;> simp [hr]

/-- C2: when the `_extras` cell of a row is an object, `mergeData` returns
the shallow overlay of that object onto the remaining row fields, the
extras applied last: on a key present in the extras the merged value is the
extras' value, on any other key it is the remaining row's value. -/
theorem claim_C2_mergeData_overlay (row : Doc) (ext : Doc) (k : String)
    (h : getField row "_extras" = some (.vobj ext)) :
    mergeData row = some (spread (removeField row "_extras") ext)
    ∧ (hasField ext k = true →
        getField (spread (removeField row "_extras") ext) k = getField ext k)
    ∧ (hasField ext k = false →
        getField (spread (removeField row "_extras") ext) k
          = getField (removeField row "_extras") k) := by
  refine ⟨?_, ?_, ?_⟩
  · unfold mergeData; rw [h]
  · intro hk; rw [getField_spread, hk]; simp
  · intro hk; rw [getField_spread, hk]; simp

/-- Concrete row for the C2 witness. -/
def c2row : Doc :=
  [("a", PgVal.vnum 1), ("b", PgVal.vnum 2),
   ("_extras", PgVal.vobj [("a", PgVal.vnum 9), ("c", PgVal.vnum 3)])]

/-- C2 witness: on a concrete row whose `_extras` object and typed columns
share the key `a`, the merged value at `a` is the extras' value `9`. -/
theorem claim_C2_witness :
    hasField [("a", PgVal.vnum 9), ("c", PgVal.vnum 3)] "a" = true
    ∧ getField (spread (removeField c2row "_extras")
        [("a", PgVal.vnum 9), ("c", PgVal.vnum 3)]) "a"
      = some (PgVal.vnum 9) := by
  refine ⟨rfl, ?_⟩
  have h := (claim_C2_mergeData_overlay c2row
    [("a", PgVal.vnum 9), ("c", PgVal.vnum 3)] "a" rfl).2.1 rfl
  rw [h]; rfl

/-- C3 (amended): `mapHawiahTypeToSQL` is first-match-wins on the uppercased
tag; within the number branch, a tag containing `int` — which includes every
tag containing `bigint` — maps to `INTEGER`, and a tag without `int` maps to
`REAL`; consequently the 64-bit type `BIGINT` is never produced (its rule is
dead code, as `"BIGINT"` contains `"INT"`). -/
theorem claim_C3_typeMapping :
    (∀ tag : String,
      includes (toUpperStr tag) "STRING" = false → includes (toUpperStr tag) "TEXT" = false →
      includes (toUpperStr tag) "EMAIL" = false → includes (toUpperStr tag) "URL" = false →
      includes (toUpperStr tag) "CHAR" = false → includes (toUpperStr tag) "UUID" = false →
      includes (toUpperStr tag) "NUMBER" = true →
      mapHawiahTypeToSQL tag
        = (if includes (toUpperStr tag) "INT" then "INTEGER" else "REAL"))
    ∧ (∀ tag : String, mapHawiahTypeToSQL tag ≠ "BIGINT") := by
  constructor
  · intro tag h1 h2 h3 h4 h5 h6 h7
    unfold mapHawiahTypeToSQL
    simp only [h1, h2, h3, h4, h5, h6, h7, Bool.or_false, Bool.false_or]
    cases hint : includes (toUpperStr tag) "INT"
    · have hbig : includes (toUpperStr tag) "BIGINT" = false := by
        cases hb : includes (toUpperStr tag) "BIGINT"
        · rfl
        · exact absurd (includes_INT_of_BIGINT _ hb) (by simp [hint])
      simp [hint, hbig]
    · simp [hint]
  · intro tag
    unfold mapHawiahTypeToSQL
    split_ifs with h1 h2 h3 h4 h5 h6 h7 h8 h9 <;> try decide
    exact absurd (includes_INT_of_BIGINT _ h5) h4

/-- C3 counterexample: the tag `number:bigint` contains both `number` and
`bigint`, yet it maps to `INTEGER`, not to the 64-bit type `BIGINT`. -/
theorem claim_C3_counterexample :
    mapHawiahTypeToSQL "number:bigint" = "INTEGER"
    ∧ mapHawiahTypeToSQL "number:bigint" ≠ "BIGINT" := by
  constructor
  · decide
  · decide

/-- C3 witness: the amended rule evaluated at `number:integer` (maps to
`INTEGER`) and the unreachability of `BIGINT` at `number:float`. -/
theorem claim_C3_witness :
    mapHawiahTypeToSQL "number:integer" = "INTEGER"
    ∧ mapHawiahTypeToSQL "number:float" ≠ "BIGINT" := by
  constructor
  · have h := claim_C3_typeMapping.1 "number:integer" (by decide) (by decide)
      (by decide) (by decide) (by decide) (by decide) (by decide)
    rw [h]; decide
  · exact claim_C3_typeMapping.2 "number:float"

theorem buildRecord_reserved (data : Doc) (id : String) (n : Nat) :
    getField (buildRecord data id n) "_id" = some (.vstr id)
    ∧ getField (buildRecord data id n) "_createdAt" = some (.vstr (isoString n))
    ∧ getField (buildRecord data id n) "_updatedAt" = some (.vstr (isoString n)) := by
  refine ⟨?_, ?_, ?_⟩ <;> (unfold buildRecord; rw [getField_spread]) <;> rfl

theorem idFastPath_id (id : String) (h : id ≠ "") :
    idFastPath [("_id", PgVal.vstr id)] = some (PgVal.vstr id) := by
  unfold idFastPath
  show (match getField [("_id", PgVal.vstr id)] "_id" with
        | some v => if truthy v then some v else none
        | none => none) = some (PgVal.vstr id)
  have hg : getField [("_id", PgVal.vstr id)] "_id" = some (PgVal.vstr id) := rfl
  rw [hg]
  simp [truthy, h]

theorem noSqlGetOne_unfold (st : NoSqlStore) (q : Doc) (hc : st.connected = true) :
    NoSqlStore.getOne st q
      = match idFastPath q with
        | some v => .ok (st.directIdLookup v)
        | none => (st.get q).map (fun results => results.head?) := by
  unfold NoSqlStore.getOne
  rw [hc]
  simp

theorem sqlGetOne_unfold (st : SqlStore) (q : Doc) (hc : st.connected = true) :
    SqlStore.getOne st q
      = match idFastPath q with
        | some v => st.directIdLookup v
        | none => (st.get q).map (fun results => results.head?) := by
  unfold SqlStore.getOne
  rw [hc]
  simp

/-- The document-mode row inserted by `set` for input `data` at time `nowMs`
with random suffix `rand` (restates the INSERT of lines 169-173). -/
def insertedNoRow (data : Doc) (nowMs : Nat) (rand : String) : NoRow :=
  ⟨generateId nowMs rand, buildRecord data (generateId nowMs rand) nowMs, nowMs, nowMs⟩

/-- The hybrid-mode row inserted by `set` (restates the INSERT of lines
152-166): schema columns from the split record (NULL when unsupplied),
extras blob, both timestamps. -/
def insertedSqlRow (defn : List String) (data : Doc) (nowMs : Nat) (rand : String) : SqlRow :=
  { id := generateId nowMs rand
    cols := defn.map (fun k =>
      (k, (getField (splitData (some defn)
            (buildRecord data (generateId nowMs rand) nowMs)).schemaData k).getD .vnull))
    extras := (splitData (some defn) (buildRecord data (generateId nowMs rand) nowMs)).extraData
    createdAt := nowMs
    updatedAt := nowMs }

/-- C4 (amended): for every inserted document the returned record's `_id` is
a non-empty string and its `_createdAt` equals its `_updatedAt`; in document
mode, when the generated id is fresh, a subsequent `getOne` by that id
returns exactly the returned record; in hybrid mode the subsequent `getOne`
by that id instead returns the merge of the stored physical row (schema
columns null-padded, timestamps as date values), which in general differs
from the returned record. -/
theorem claim_C4_insert_reread (st : NoSqlStore) (hst : SqlStore)
    (nowMs : Nat) (rand : String) (data : Doc) :
    (∃ i, getField (buildRecord data (generateId nowMs rand) nowMs) "_id"
        = some (.vstr i) ∧ i ≠ "")
    ∧ getField (buildRecord data (generateId nowMs rand) nowMs) "_createdAt"
        = getField (buildRecord data (generateId nowMs rand) nowMs) "_updatedAt"
    ∧ (st.connected = true →
        NoSqlStore.set st nowMs rand data
          = .ok ({ st with rows := st.rows ++ [insertedNoRow data nowMs rand] },
                 buildRecord data (generateId nowMs rand) nowMs)
        ∧ ((∀ r ∈ st.rows, r.id ≠ generateId nowMs rand) →
            NoSqlStore.getOne { st with rows := st.rows ++ [insertedNoRow data nowMs rand] }
                [("_id", PgVal.vstr (generateId nowMs rand))]
              = .ok (some (buildRecord data (generateId nowMs rand) nowMs))))
    ∧ (hst.connected = true →
        SqlStore.set hst nowMs rand data
          = .ok ({ hst with rows := hst.rows ++ [insertedSqlRow hst.defn data nowMs rand] },
                 buildRecord data (generateId nowMs rand) nowMs)
        ∧ ((∀ r ∈ hst.rows, r.id ≠ generateId nowMs rand) →
            ∀ m, mergeData (SqlRow.toDoc (insertedSqlRow hst.defn data nowMs rand)) = some m →
              SqlStore.getOne
                  { hst with rows := hst.rows ++ [insertedSqlRow hst.defn data nowMs rand] }
                  [("_id", PgVal.vstr (generateId nowMs rand))]
                = .ok (some m))) := by
  refine ⟨⟨generateId nowMs rand, (buildRecord_reserved data (generateId nowMs rand) nowMs).1,
      generateId_ne_empty nowMs rand⟩,
    ((buildRecord_reserved data (generateId nowMs rand) nowMs).2.1).trans
      ((buildRecord_reserved data (generateId nowMs rand) nowMs).2.2).symm,
    ?_, ?_⟩
  · intro hc
    constructor
    · simp [NoSqlStore.set, hc, insertedNoRow]
    · intro hfresh
      rw [noSqlGetOne_unfold
        { st with rows := st.rows ++ [insertedNoRow data nowMs rand] } _ hc]
      rw [idFastPath_id _ (generateId_ne_empty nowMs rand)]
      have hnone : ∀ r ∈ st.rows,
          (fun r => PgVal.beq (.vstr r.id) (.vstr (generateId nowMs rand))) r = false := by
        intro r hr
        show PgVal.beq (.vstr r.id) (.vstr (generateId nowMs rand)) = false
        rw [beq_vstr]
        exact beq_eq_false_iff_ne.mpr (hfresh r hr)
      show Except.ok (((st.rows ++ [insertedNoRow data nowMs rand]).find?
          (fun r => PgVal.beq (.vstr r.id) (.vstr (generateId nowMs rand)))).map
            (fun r => r.data)) = _
      rw [find?_append_of_none _ _ _ hnone]
      simp [List.find?, insertedNoRow, beq_vstr]
  · intro hc
    constructor
    · simp [SqlStore.set, hc, insertedSqlRow]
    · intro hfresh m hm
      rw [sqlGetOne_unfold
        { hst with rows := hst.rows ++ [insertedSqlRow hst.defn data nowMs rand] } _ hc]
      rw [idFastPath_id _ (generateId_ne_empty nowMs rand)]
      have hnone : ∀ r ∈ hst.rows,
          (fun r => PgVal.beq (.vstr r.id) (.vstr (generateId nowMs rand))) r = false := by
        intro r hr
        show PgVal.beq (.vstr r.id) (.vstr (generateId nowMs rand)) = false
        rw [beq_vstr]
        exact beq_eq_false_iff_ne.mpr (hfresh r hr)
      show (match (hst.rows ++ [insertedSqlRow hst.defn data nowMs rand]).find?
          (fun r => PgVal.beq (.vstr r.id) (.vstr (generateId nowMs rand))) with
        | some r =>
          match mergeData r.toDoc with
          | some m2 => Except.ok (some m2)
          | none => Except.error "JSON parse error"
        | none => Except.ok none) = Except.ok (some m)
      rw [find?_append_of_none _ _ _ hnone]
      have hfind : ([insertedSqlRow hst.defn data nowMs rand].find?
          (fun r => PgVal.beq (.vstr r.id) (.vstr (generateId nowMs rand))))
          = some (insertedSqlRow hst.defn data nowMs rand) := by
        simp [List.find?, insertedSqlRow, beq_vstr]
      rw [hfind]
      show (match mergeData (insertedSqlRow hst.defn data nowMs rand).toDoc with
        | some m2 => Except.ok (some m2)
        | none => Except.error "JSON parse error") = Except.ok (some m)
      rw [hm]

/-- The record returned by the C5 insert. -/
def c5doc1 : Doc := buildRecord [("name", PgVal.vstr "a")] (generateId 5 "ab") 5

/-- Store state after the C5 insert. -/
def c5st1 : NoSqlStore := ⟨true, [⟨generateId 5 "ab", c5doc1, 5, 5⟩]⟩

/-- The document stored by the C5 update: the patch's `_id` and `_createdAt`
have replaced the original values. -/
def c5doc2 : Doc :=
  [("name", PgVal.vstr "a"), ("_id", PgVal.vstr "evil"),
   ("_createdAt", PgVal.vstr "fake"), ("_updatedAt", PgVal.vstr (isoString 7))]

/-- Store state after the C5 update. -/
def c5st2 : NoSqlStore := ⟨true, [⟨generateId 5 "ab", c5doc2, 5, 7⟩]⟩

/-- C5 (code bug, document mode): after inserting `{name: "a"}`, an
`update({}, {_id: "evil", _createdAt: "fake"})` stores a document whose
`_id` and `_createdAt` are the patch's values, not the original record's —
the `_data` blob's `_id` now even differs from the row's primary key.  The
claim (and the driver variant shipped alongside, which assigns
`updatedRecord._id = record._id; updatedRecord._createdAt =
record._createdAt`) says both fields are force-preserved. -/
theorem claim_C5_update_overwrites_reserved :
    NoSqlStore.set ⟨true, []⟩ 5 "ab" [("name", PgVal.vstr "a")] = .ok (c5st1, c5doc1)
    ∧ getField c5doc1 "_id" = some (PgVal.vstr (generateId 5 "ab"))
    ∧ getField c5doc1 "_createdAt" = some (PgVal.vstr (isoString 5))
    ∧ NoSqlStore.update c5st1 7 []
        [("_id", PgVal.vstr "evil"), ("_createdAt", PgVal.vstr "fake")] = .ok (c5st2, 1)
    ∧ getField c5doc2 "_id" = some (PgVal.vstr "evil")
    ∧ getField c5doc2 "_createdAt" = some (PgVal.vstr "fake")
    ∧ NoSqlStore.get c5st2 [] = .ok [c5doc2] :=
  ⟨rfl, rfl, rfl, rfl, rfl, rfl, rfl⟩

theorem NoSqlStore.existsQ_unfold (st : NoSqlStore) (q : Doc) (hc : st.connected = true) :
    NoSqlStore.existsQ st q = (st.getOne q).map (fun r => r.isSome) := by
  unfold NoSqlStore.existsQ
  rw [hc]
  simp

theorem sqlExistsQ_unfold (st : SqlStore) (q : Doc) (hc : st.connected = true) :
    SqlStore.existsQ st q = (st.getOne q).map (fun r => r.isSome) := by
  unfold SqlStore.existsQ
  rw [hc]
  simp

/-- C6 (amended): in both storage modes, for criteria without a truthy
`_id`, `exists(criteria)` returns exactly the non-emptiness of
`find(criteria)`; for criteria with a truthy string `_id`, `exists` reports
whether some row has that id — ignoring every other criteria key (in hybrid
mode via the merged row, provided the found row's extras blob merges
cleanly, as every driver-written row does), so it can disagree with `find`'s
emptiness. -/
theorem claim_C6_exists_iff_find (st : NoSqlStore) (hst : SqlStore) (q : Doc)
    (hc : st.connected = true) (hc2 : hst.connected = true) :
    (idFastPath q = none →
      ∀ l, NoSqlStore.get st q = .ok l → NoSqlStore.existsQ st q = .ok (!l.isEmpty))
    ∧ (∀ s, idFastPath q = some (.vstr s) →
      NoSqlStore.existsQ st q = .ok (st.rows.any (fun r => r.id == s)))
    ∧ (idFastPath q = none →
      ∀ l, SqlStore.get hst q = .ok l → SqlStore.existsQ hst q = .ok (!l.isEmpty))
    ∧ (∀ s, idFastPath q = some (.vstr s) →
        (hst.rows.find? (fun r => PgVal.beq (.vstr r.id) (.vstr s)) = none →
          SqlStore.existsQ hst q = .ok false)
        ∧ (∀ r m, hst.rows.find? (fun r => PgVal.beq (.vstr r.id) (.vstr s)) = some r →
            mergeData r.toDoc = some m → SqlStore.existsQ hst q = .ok true)) := by
  refine ⟨?_, ?_, ?_, ?_⟩
  · intro hpath l hget
    rw [NoSqlStore.existsQ_unfold st q hc, noSqlGetOne_unfold st q hc, hpath, hget]
    show Except.ok l.head?.isSome = Except.ok (!l.isEmpty)
    rw [head?_isSome_eq]
  · intro s hpath
    rw [NoSqlStore.existsQ_unfold st q hc, noSqlGetOne_unfold st q hc, hpath]
    unfold NoSqlStore.directIdLookup
    show Except.ok ((st.rows.find?
        (fun r => PgVal.beq (.vstr r.id) (.vstr s))).map (fun r => r.data)).isSome
      = Except.ok (st.rows.any (fun r => r.id == s))
    simp [find?_isSome_eq_any, beq_vstr]
  · intro hpath l hget
    rw [sqlExistsQ_unfold hst q hc2, sqlGetOne_unfold hst q hc2, hpath, hget]
    show Except.ok l.head?.isSome = Except.ok (!l.isEmpty)
    rw [head?_isSome_eq]
  · intro s hpath
    constructor
    · intro hfind
      rw [sqlExistsQ_unfold hst q hc2, sqlGetOne_unfold hst q hc2, hpath]
      unfold SqlStore.directIdLookup
      show Except.map (fun r => r.isSome)
        (match hst.rows.find? (fun r => PgVal.beq (.vstr r.id) (.vstr s)) with
          | some r =>
            match mergeData r.toDoc with
            | some m => Except.ok (some m)
            | none => Except.error "JSON parse error"
          | none => Except.ok none) = Except.ok false
      rw [hfind]
      rfl
    · intro r m hfind hm
      rw [sqlExistsQ_unfold hst q hc2, sqlGetOne_unfold hst q hc2, hpath]
      unfold SqlStore.directIdLookup
      show Except.map (fun r => r.isSome)
        (match hst.rows.find? (fun r => PgVal.beq (.vstr r.id) (.vstr s)) with
          | some r =>
            match mergeData r.toDoc with
            | some m2 => Except.ok (some m2)
            | none => Except.error "JSON parse error"
          | none => Except.ok none) = Except.ok true
      rw [hfind]
      show Except.map (fun r => r.isSome)
        (match mergeData r.toDoc with
          | some m2 => Except.ok (some m2)
          | none => Except.error "JSON parse error") = Except.ok true
      rw [hm]
      rfl

/-- The record inserted in the C6 store. -/
def c6doc : Doc := buildRecord [("name", PgVal.vstr "a")] (generateId 5 "ab") 5

/-- The one-record store used for C6. -/
def c6st : NoSqlStore := ⟨true, [⟨generateId 5 "ab", c6doc, 5, 5⟩]⟩

/-- The hybrid row and one-row hybrid store used for C6 (schema `{age}`). -/
def c6hrow : SqlRow := ⟨generateId 5 "ab", [("age", PgVal.vnull)], [], 5, 5⟩

/-- The one-record hybrid store used for C6. -/
def c6hst : SqlStore := ⟨true, ["age"], [c6hrow]⟩

/-- The merged document of the C6 hybrid row. -/
def c6hmerged : Doc :=
  [("_id", PgVal.vstr (generateId 5 "ab")), ("age", PgVal.vnull),
   ("_createdAt", PgVal.vdate 5), ("_updatedAt", PgVal.vdate 5)]

/-- C6 witness: on concrete one-record stores of both modes, the amended
equivalence gives `exists = true` — via the non-empty find for an id-free
criteria (document mode), and via the id lookup on the merged row (hybrid
mode). -/
theorem claim_C6_witness :
    NoSqlStore.existsQ c6st [("name", PgVal.vstr "a")] = .ok true
    ∧ SqlStore.existsQ c6hst [("_id", PgVal.vstr (generateId 5 "ab"))] = .ok true := by
  constructor
  · exact (claim_C6_exists_iff_find c6st c6hst [("name", PgVal.vstr "a")] rfl rfl).1
      rfl [c6doc] rfl
  · exact ((claim_C6_exists_iff_find c6st c6hst
        [("_id", PgVal.vstr (generateId 5 "ab"))] rfl rfl).2.2.2
      (generateId 5 "ab") rfl).2 c6hrow c6hmerged rfl rfl

/-- C6 counterexample: the criteria `{_id: <the record's id>, name: "b"}`
contains `_id` together with another key; `exists` returns `true` (the id
path ignores `name`) while `find` returns the empty list. -/
theorem claim_C6_counterexample :
    NoSqlStore.set ⟨true, []⟩ 5 "ab" [("name", PgVal.vstr "a")] = .ok (c6st, c6doc)
    ∧ NoSqlStore.existsQ c6st
        [("_id", PgVal.vstr (generateId 5 "ab")), ("name", PgVal.vstr "b")] = .ok true
    ∧ NoSqlStore.get c6st
        [("_id", PgVal.vstr (generateId 5 "ab")), ("name", PgVal.vstr "b")] = .ok [] :=
  ⟨rfl, rfl, rfl⟩

/-- C7 (amended): in both storage modes `getOne` takes the direct
single-row lookup exactly when the criteria's `_id` is present and truthy
(non-empty, for a string id); otherwise — including an `_id` present but
falsy, such as the empty string — it delegates to `get` and returns the
first result or `null`. -/
theorem claim_C7_getOne_dispatch (st : NoSqlStore) (hst : SqlStore) (q : Doc)
    (hc : st.connected = true) (hc2 : hst.connected = true) :
    (∀ v, idFastPath q = some v →
      NoSqlStore.getOne st q = .ok (st.directIdLookup v))
    ∧ (idFastPath q = none →
      ∀ l, NoSqlStore.get st q = .ok l → NoSqlStore.getOne st q = .ok l.head?)
    ∧ (∀ v, idFastPath q = some v →
      SqlStore.getOne hst q = hst.directIdLookup v)
    ∧ (idFastPath q = none →
      ∀ l, SqlStore.get hst q = .ok l → SqlStore.getOne hst q = .ok l.head?) := by
  refine ⟨?_, ?_, ?_, ?_⟩
  · intro v hv
    rw [noSqlGetOne_unfold st q hc, hv]
  · intro hnone l hget
    rw [noSqlGetOne_unfold st q hc, hnone, hget]
    rfl
  · intro v hv
    rw [sqlGetOne_unfold hst q hc2, hv]
  · intro hnone l hget
    rw [sqlGetOne_unfold hst q hc2, hnone, hget]
    rfl

/-- The record inserted in the C7 store. -/
def c7doc : Doc := buildRecord [("name", PgVal.vstr "a")] (generateId 5 "ab") 5

/-- The C7 store right after the insert. -/
def c7st0 : NoSqlStore := ⟨true, [⟨generateId 5 "ab", c7doc, 5, 5⟩]⟩

/-- The C7 document after `update({}, {_id: ""})`: its `_id` field is the
empty string while the row key is untouched. -/
def c7doc2 : Doc :=
  [("name", PgVal.vstr "a"), ("_createdAt", PgVal.vstr (isoString 5)),
   ("_id", PgVal.vstr ""), ("_updatedAt", PgVal.vstr (isoString 7))]

/-- The C7 store after that update. -/
def c7st1 : NoSqlStore := ⟨true, [⟨generateId 5 "ab", c7doc2, 5, 7⟩]⟩

/-- The hybrid row and one-row hybrid store used for the C7 witness. -/
def c7hrow : SqlRow := ⟨generateId 5 "ab", [("age", PgVal.vnull)], [], 5, 5⟩

/-- The one-record hybrid store used for C7. -/
def c7hst : SqlStore := ⟨true, ["age"], [c7hrow]⟩

/-- The merged document of the C7 hybrid row. -/
def c7hmerged : Doc :=
  [("_id", PgVal.vstr (generateId 5 "ab")), ("age", PgVal.vnull),
   ("_createdAt", PgVal.vdate 5), ("_updatedAt", PgVal.vdate 5)]

/-- C7 witness: with a truthy `_id` criteria on concrete stores of both
modes, `getOne` is the direct row lookup, which finds the record (merged,
in hybrid mode). -/
theorem claim_C7_witness :
    NoSqlStore.getOne c7st0 [("_id", PgVal.vstr (generateId 5 "ab"))]
      = .ok (NoSqlStore.directIdLookup c7st0 (PgVal.vstr (generateId 5 "ab")))
    ∧ NoSqlStore.directIdLookup c7st0 (PgVal.vstr (generateId 5 "ab")) = some c7doc
    ∧ SqlStore.getOne c7hst [("_id", PgVal.vstr (generateId 5 "ab"))]
      = SqlStore.directIdLookup c7hst (PgVal.vstr (generateId 5 "ab"))
    ∧ SqlStore.directIdLookup c7hst (PgVal.vstr (generateId 5 "ab")) = .ok (some c7hmerged) :=
  ⟨(claim_C7_getOne_dispatch c7st0 c7hst
      [("_id", PgVal.vstr (generateId 5 "ab"))] rfl rfl).1 _ rfl, rfl,
   (claim_C7_getOne_dispatch c7st0 c7hst
      [("_id", PgVal.vstr (generateId 5 "ab"))] rfl rfl).2.2.1 _ rfl, rfl⟩

/-- C7 counterexample: in the reachable store whose stored document carries
`_id: ""`, the criteria `{_id: ""}` contains `_id`, yet `getOne` returns the
record via the full scan while the direct id lookup finds nothing — the
claim's "contains `_id` implies direct lookup" fails on falsy ids. -/
theorem claim_C7_counterexample :
    NoSqlStore.update c7st0 7 [] [("_id", PgVal.vstr "")] = .ok (c7st1, 1)
    ∧ hasField [("_id", PgVal.vstr "")] "_id" = true
    ∧ NoSqlStore.getOne c7st1 [("_id", PgVal.vstr "")] = .ok (some c7doc2)
    ∧ NoSqlStore.directIdLookup c7st1 (PgVal.vstr "") = none :=
  ⟨rfl, rfl, rfl, rfl⟩

/-- C4 witness: inserting `{x: 1}` into an empty document-mode store and
re-reading by the generated id returns the identical record; its timestamps
agree. -/
theorem claim_C4_witness :
    NoSqlStore.getOne ⟨true, [insertedNoRow [("x", PgVal.vnum 1)] 5 "ab"]⟩
        [("_id", PgVal.vstr (generateId 5 "ab"))]
      = .ok (some (buildRecord [("x", PgVal.vnum 1)] (generateId 5 "ab") 5))
    ∧ getField (buildRecord [("x", PgVal.vnum 1)] (generateId 5 "ab") 5) "_createdAt"
        = getField (buildRecord [("x", PgVal.vnum 1)] (generateId 5 "ab") 5) "_updatedAt" := by
  have h := claim_C4_insert_reread ⟨true, []⟩ ⟨true, ["age"], []⟩ 5 "ab" [("x", PgVal.vnum 1)]
  refine ⟨?_, h.2.1⟩
  have h2 := (h.2.2.1 rfl).2 (by intro r hr; exact absurd hr (List.not_mem_nil r))
  exact h2

/-- The hybrid re-read document of the C4 counterexample: the unsupplied
schema column `age` is null-padded and the timestamps are date values. -/
def c4hmerged : Doc :=
  [("_id", PgVal.vstr (generateId 5 "ab")), ("age", PgVal.vnull),
   ("_createdAt", PgVal.vdate 5), ("_updatedAt", PgVal.vdate 5)]

/-- C4 counterexample (hybrid mode): inserting the empty document into a
hybrid store with schema `{age}` and re-reading by the generated id returns
a document with an extra `age: null` field and date-typed timestamps — not
equal to the returned record, whose timestamps are ISO strings and which has
no `age` key. -/
theorem claim_C4_counterexample :
    SqlStore.set ⟨true, ["age"], []⟩ 5 "ab" []
      = .ok (⟨true, ["age"], [⟨generateId 5 "ab", [("age", PgVal.vnull)], [], 5, 5⟩]⟩,
             buildRecord [] (generateId 5 "ab") 5)
    ∧ SqlStore.getOne ⟨true, ["age"], [⟨generateId 5 "ab", [("age", PgVal.vnull)], [], 5, 5⟩]⟩
        [("_id", PgVal.vstr (generateId 5 "ab"))] = .ok (some c4hmerged)
    ∧ getField c4hmerged "age" = some PgVal.vnull
    ∧ getField (buildRecord [] (generateId 5 "ab") 5) "age" = none
    ∧ getField c4hmerged "_createdAt" = some (PgVal.vdate 5)
    ∧ getField (buildRecord [] (generateId 5 "ab") 5) "_createdAt"
        = some (PgVal.vstr (isoString 5))
    ∧ c4hmerged ≠ buildRecord [] (generateId 5 "ab") 5 := by
  refine ⟨rfl, rfl, rfl, rfl, rfl, rfl, ?_⟩
  intro h
  have h2 := congrArg (fun d => getField d "age") h
  have h3 : (some PgVal.vnull : Option PgVal) = none := h2
  exact Option.noConfusion h3

/-- C8: every document operation of either mode, invoked on a disconnected
store, returns the `ensureConnected` error; the error result carries no
updated store, so the store is unchanged, and the guard sits before any
database access. -/
theorem claim_C8_not_connected (st : NoSqlStore) (hst : SqlStore)
    (nowMs : Nat) (rand : String) (q data : Doc)
    (h : st.connected = false) (h2 : hst.connected = false) :
    NoSqlStore.set st nowMs rand data = .error notConnectedMsg
    ∧ NoSqlStore.get st q = .error notConnectedMsg
    ∧ NoSqlStore.getOne st q = .error notConnectedMsg
    ∧ NoSqlStore.update st nowMs q data = .error notConnectedMsg
    ∧ NoSqlStore.delete st q = .error notConnectedMsg
    ∧ NoSqlStore.existsQ st q = .error notConnectedMsg
    ∧ NoSqlStore.count st q = .error notConnectedMsg
    ∧ SqlStore.set hst nowMs rand data = .error notConnectedMsg
    ∧ SqlStore.get hst q = .error notConnectedMsg
    ∧ SqlStore.getOne hst q = .error notConnectedMsg
    ∧ SqlStore.update hst nowMs q data = .error notConnectedMsg
    ∧ SqlStore.delete hst q = .error notConnectedMsg
    ∧ SqlStore.existsQ hst q = .error notConnectedMsg
    ∧ SqlStore.count hst q = .error notConnectedMsg := by
  refine ⟨?_, ?_, ?_, ?_, ?_, ?_, ?_, ?_, ?_, ?_, ?_, ?_, ?_, ?_⟩ <;>
    simp [NoSqlStore.set, NoSqlStore.get, NoSqlStore.getOne, NoSqlStore.update,
      NoSqlStore.delete, NoSqlStore.existsQ, NoSqlStore.count,
      SqlStore.set, SqlStore.get, SqlStore.getOne, SqlStore.update,
      SqlStore.delete, SqlStore.existsQ, SqlStore.count, h, h2]

/-- C8 witness: concrete disconnected stores; two representative operations
evaluated. -/
theorem claim_C8_witness :
    (⟨false, []⟩ : NoSqlStore).connected = false
    ∧ NoSqlStore.set ⟨false, []⟩ 0 "" [] = .error notConnectedMsg
    ∧ SqlStore.count ⟨false, [], []⟩ [] = .error notConnectedMsg := by
  have h := claim_C8_not_connected ⟨false, []⟩ ⟨false, [], []⟩ 0 "" [] [] rfl rfl
  exact ⟨rfl, h.1, h.2.2.2.2.2.2.2.2.2.2.2.2.2⟩

/-- C9 (amended): when the `_extras` cell is neither an object (in the JS
`typeof` sense) nor a string — absent, null, boolean or number — `mergeData`
succeeds and returns just the remaining row fields; when the cell is a
string it is handed to `JSON.parse`, whose failure on a malformed string
propagates (there is no fallback for unparseable strings). -/
theorem claim_C9_merge_nonobject (row : Doc) :
    (getField row "_extras" = none → mergeData row = some (removeField row "_extras"))
    ∧ (getField row "_extras" = some PgVal.vnull →
        mergeData row = some (removeField row "_extras"))
    ∧ (∀ b, getField row "_extras" = some (PgVal.vbool b) →
        mergeData row = some (removeField row "_extras"))
    ∧ (∀ n, getField row "_extras" = some (PgVal.vnum n) →
        mergeData row = some (removeField row "_extras"))
    ∧ (∀ s, getField row "_extras" = some (PgVal.vstr s) →
        mergeData row
          = (jsonParse s).map (fun v => spread (removeField row "_extras") (spreadFields v))) := by
  refine ⟨?_, ?_, ?_, ?_, ?_⟩
  · intro h; simp [mergeData, h]
  · intro h; simp [mergeData, h]
  · intro b h; simp [mergeData, h]
  · intro n h; simp [mergeData, h]
  · intro s h; simp [mergeData, h]

/-- A row whose extras cell is a number (neither object nor string). -/
def c9nrow : Doc := [("a", PgVal.vnum 1), ("_extras", PgVal.vnum 7)]

/-- C9 witness: a numeric extras cell is treated as empty and merge returns
the typed fields. -/
theorem claim_C9_witness :
    getField c9nrow "_extras" = some (PgVal.vnum 7)
    ∧ mergeData c9nrow = some [("a", PgVal.vnum 1)] := by
  refine ⟨rfl, ?_⟩
  exact (claim_C9_merge_nonobject c9nrow).2.2.2.1 7 rfl

/-- A row whose extras cell is the unparseable string `"{"`. -/
def c9row : Doc := [("a", PgVal.vnum 1), ("_extras", PgVal.vstr "\x7b")]

/-- C9 counterexample: the extras cell `"{"` is a string that is not
parseable JSON; `JSON.parse` throws and `mergeData` fails instead of falling
back to an empty object. -/
theorem claim_C9_counterexample :
    getField c9row "_extras" = some (PgVal.vstr "\x7b")
    ∧ jsonParse "\x7b" = none
    ∧ mergeData c9row = none :=
  ⟨rfl, rfl, rfl⟩

/-- C10: in both modes the record returned (and stored) by `set` carries the
freshly generated id and the two identical current timestamps in its three
reserved fields, whatever the input document contained — caller-supplied
`_id`, `_createdAt`, `_updatedAt` are overridden by the record literal's
trailing explicit properties. -/
theorem claim_C10_set_reserved (st : NoSqlStore) (hst : SqlStore)
    (nowMs : Nat) (rand : String) (data : Doc) :
    getField (buildRecord data (generateId nowMs rand) nowMs) "_id"
        = some (PgVal.vstr (generateId nowMs rand))
    ∧ getField (buildRecord data (generateId nowMs rand) nowMs) "_createdAt"
        = some (PgVal.vstr (isoString nowMs))
    ∧ getField (buildRecord data (generateId nowMs rand) nowMs) "_updatedAt"
        = some (PgVal.vstr (isoString nowMs))
    ∧ (st.connected = true →
        NoSqlStore.set st nowMs rand data
          = .ok ({ st with rows := st.rows ++ [insertedNoRow data nowMs rand] },
                 buildRecord data (generateId nowMs rand) nowMs))
    ∧ (hst.connected = true →
        SqlStore.set hst nowMs rand data
          = .ok ({ hst with rows := hst.rows ++ [insertedSqlRow hst.defn data nowMs rand] },
                 buildRecord data (generateId nowMs rand) nowMs)) := by
  refine ⟨(buildRecord_reserved data (generateId nowMs rand) nowMs).1,
    (buildRecord_reserved data (generateId nowMs rand) nowMs).2.1,
    (buildRecord_reserved data (generateId nowMs rand) nowMs).2.2, ?_, ?_⟩
  · intro hc; simp [NoSqlStore.set, hc, insertedNoRow]
  · intro hc; simp [SqlStore.set, hc, insertedSqlRow]

/-- An input document that already carries caller-supplied reserved keys. -/
def c10data : Doc :=
  [("_id", PgVal.vstr "caller"), ("_createdAt", PgVal.vstr "caller2"),
   ("_updatedAt", PgVal.vstr "caller3"), ("x", PgVal.vnum 1)]

/-- C10 witness: even when the input supplies its own `_id`/`_createdAt`/
`_updatedAt`, the returned record carries the generated id and the store's
timestamps. -/
theorem claim_C10_witness :
    getField (buildRecord c10data (generateId 5 "ab") 5) "_id"
      = some (PgVal.vstr (generateId 5 "ab"))
    ∧ getField (buildRecord c10data (generateId 5 "ab") 5) "_createdAt"
      = some (PgVal.vstr (isoString 5))
    ∧ NoSqlStore.set ⟨true, []⟩ 5 "ab" c10data
      = .ok (⟨true, [insertedNoRow c10data 5 "ab"]⟩,
             buildRecord c10data (generateId 5 "ab") 5) := by
  have h := claim_C10_set_reserved ⟨true, []⟩ ⟨true, ["age"], []⟩ 5 "ab" c10data
  exact ⟨h.1, h.2.1, h.2.2.2.1 rfl⟩
